import Mathlib

/-!
Verification of the Route Safety Engine of the Flood_Detection_Demo
repository.  Coordinates and distances are embedded as exact rationals;
machine floats of the source are modelled by `ℚ`.  Calls into external
libraries (pyproj transformers, rasterio `rowcol`, the n8n hazard
provider, the Overpass road provider, OR-Tools) are modelled as explicit
function parameters, keeping the repository's own control flow exact.
-/

namespace FloodDemo

/-- A bounding box `(min_lon, min_lat, max_lon, max_lat)` in WGS84 degrees,
as unpacked at the top of `generate_tiles` in `flood_detection.py`. -/
structure BBox where
  minLon : ℚ
  minLat : ℚ
  maxLon : ℚ
  maxLat : ℚ
deriving DecidableEq, Repr

/-- Length of `numpy.arange(start, stop, step)` for a positive `step`:
`⌈(stop - start) / step⌉`, and `0` when `stop ≤ start`. -/
def arangeLen (start stop step : ℚ) : ℕ :=
  (⌈(stop - start) / step⌉).toNat

/-- `numpy.arange(start, stop, step)` over exact rationals: the values
`start + i * step` for `i < arangeLen start stop step`. -/
def arange (start stop step : ℚ) : List ℚ :=
  List.map (fun i : ℕ => start + (i : ℚ) * step) (List.range (arangeLen start stop step))

/-- `generate_tiles` from `flood_detection.py` (lines 20-31): the grid of
tiles `(lon, lat, lon + size, lat + size)` for `lon` in
`arange(min_lon, max_lon, size)` (outer loop) and `lat` in
`arange(min_lat, max_lat, size)` (inner loop). -/
def generate_tiles (bbox : BBox) (tile_size_deg : ℚ) : List BBox :=
  (arange bbox.minLon bbox.maxLon tile_size_deg).flatMap (fun lon =>
    (arange bbox.minLat bbox.maxLat tile_size_deg).map (fun lat =>
      ⟨lon, lat, lon + tile_size_deg, lat + tile_size_deg⟩))

/-- A point `(lon, lat)` lies inside a bounding box (boundary included). -/
def insideBBox (t : BBox) (lon lat : ℚ) : Prop :=
  t.minLon ≤ lon ∧ lon ≤ t.maxLon ∧ t.minLat ≤ lat ∧ lat ≤ t.maxLat

/-- A point `(lon, lat)` lies strictly inside a bounding box, i.e. in its
interior (used to state that tiles overlap only at shared edges). -/
def strictlyInside (t : BBox) (lon lat : ℚ) : Prop :=
  t.minLon < lon ∧ lon < t.maxLon ∧ t.minLat < lat ∧ lat < t.maxLat

/-- One flood overlay payload as produced by `fetch_flood_geotiff` in
`flood_detection.py`: the WGS84 bounds (the folium bounds
`[[south, west], [north, east]]`, stored here as the four extracted
degrees), the CRS identifier, the raster dimensions and the pixel grid.
Pixel value `1` means flooded. -/
structure Raster where
  minLon : ℚ
  minLat : ℚ
  maxLon : ℚ
  maxLat : ℚ
  crs : ℕ
  rows : ℕ
  cols : ℕ
  pix : ℕ → ℕ → ℕ

/-- The pyproj transformer family: for each target CRS, the map from WGS84
`(lon, lat)` to projected coordinates.  The source builds one transformer
per CRS and caches it in session state; in the pure model the cache is
transparent. -/
def TransformerMap : Type := ℕ → ℚ × ℚ → ℚ × ℚ

/-- The rasterio `rowcol` primitive applied to a raster's geotransform,
producing a pixel index `(row, col)`.  `none` models an exception; the
source wraps each per-raster body in try/except and skips the raster. -/
def RowColMap : Type := Raster → ℚ × ℚ → Option (ℤ × ℤ)

/-- An affected-segment record as appended by
`analyze_road_flood_impact_improved` (flood_detection.py lines 258-265). -/
structure AffectedSegment where
  vehicle : ℕ
  segment : ℕ
  coordinate : ℚ × ℚ
  raster_index : ℕ
  pixel_coords : ℤ × ℤ
  flood_value : ℕ
deriving DecidableEq, Repr

/-- The inner per-coordinate loop of `analyze_road_flood_impact_improved`
(flood_detection.py lines 225-272): scan the rasters in order; skip a
raster when the coordinate is outside its WGS84 bounds, when `rowcol`
raises, or when the pixel index is out of range; on the first raster whose
exact pixel value is `1`, stop (`break`) with that raster's index and the
pixel index. -/
def findFloodHit (tr : TransformerMap) (rc : RowColMap) (coord : ℚ × ℚ) :
    List Raster → ℕ → Option (ℕ × ℤ × ℤ)
  | [], _ => none
  | r :: rest, idx =>
    if r.minLon ≤ coord.1 ∧ coord.1 ≤ r.maxLon ∧
        r.minLat ≤ coord.2 ∧ coord.2 ≤ r.maxLat then
      match rc r (tr r.crs coord) with
      | none => findFloodHit tr rc coord rest (idx + 1)
      | some (py, px) =>
        if 0 ≤ py ∧ py < (r.rows : ℤ) ∧ 0 ≤ px ∧ px < (r.cols : ℤ) then
          if r.pix py.toNat px.toNat = 1 then some (idx, py, px)
          else findFloodHit tr rc coord rest (idx + 1)
        else findFloodHit tr rc coord rest (idx + 1)
    else findFloodHit tr rc coord rest (idx + 1)

/-- The per-vehicle coordinate loop of `analyze_road_flood_impact_improved`:
each coordinate (with its index) whose raster scan finds a flooded exact
pixel is recorded once, with `flood_value = 1`; a coordinate with no hit is
not recorded. -/
def analyzeCoords (tr : TransformerMap) (rc : RowColMap) (rasters : List Raster)
    (vehicle : ℕ) (coords : List (ℚ × ℚ)) : List AffectedSegment :=
  coords.enum.filterMap (fun ic =>
    (findFloodHit tr rc ic.2 rasters 0).map (fun h =>
      ⟨vehicle, ic.1, ic.2, h.1, (h.2.2, h.2.1), 1⟩))

/-- `analyze_road_flood_impact_improved` (flood_detection.py lines 174-286)
restricted to its intersection logic: with no rasters it returns `[]`
immediately; otherwise the per-vehicle affected segments are concatenated
in route order.  Route-geometry densification happens before this loop and
is part of the coordinate lists passed in. -/
def analyze_road_flood_impact_improved (tr : TransformerMap) (rc : RowColMap)
    (route_data : List (ℕ × List (ℚ × ℚ))) (rasters : List Raster) :
    List AffectedSegment :=
  if rasters.isEmpty then []
  else route_data.flatMap (fun v => analyzeCoords tr rc rasters v.1 v.2)

/-- The flood raster grid handed to `analyze_road_impact`
(disaster_management.py): pixel array dimensions plus values. -/
structure FloodGrid where
  rows : ℕ
  cols : ℕ
  pix : ℕ → ℕ → ℕ

/-- The ±3-pixel neighborhood test of `analyze_road_impact`
(disaster_management.py lines 62-68): with `buffer = 3` the window rows are
`[max 0 (py-3), min rows (py+4))` and the columns
`[max 0 (px-3), min cols (px+4))` (truncated ℕ subtraction is the clamp at
0), and the test is whether any window pixel equals 1. -/
def floodedInWindow (rows cols : ℕ) (pix : ℕ → ℕ → ℕ) (py px : ℕ) : Prop :=
  ∃ y ∈ Finset.Ico (py - 3) (min rows (py + 4)),
    ∃ x ∈ Finset.Ico (px - 3) (min cols (px + 4)), pix y x = 1

instance (rows cols : ℕ) (pix : ℕ → ℕ → ℕ) (py px : ℕ) :
    Decidable (floodedInWindow rows cols pix py px) := by
  unfold floodedInWindow; infer_instance

/-- The per-feature vertex scan of `analyze_road_impact`
(disaster_management.py lines 47-69): visit the feature's vertices in
order; skip a vertex when `rowcol` raises or the pixel index is out of
range; on a flooded exact pixel stop (`break`) with `is_flooded`; otherwise
accumulate `is_near_flood` from the ±3 window.  Returns the pair
`(is_flooded, is_near_flood)`. -/
def scanFeatureCoords (tr2 : ℚ × ℚ → ℚ × ℚ) (rc2 : ℚ × ℚ → Option (ℤ × ℤ))
    (g : FloodGrid) : List (ℚ × ℚ) → Bool → Bool × Bool
  | [], near => (false, near)
  | c :: rest, near =>
    match rc2 (tr2 c) with
    | none => scanFeatureCoords tr2 rc2 g rest near
    | some (py, px) =>
      if 0 ≤ px ∧ px < (g.cols : ℤ) ∧ 0 ≤ py ∧ py < (g.rows : ℤ) then
        if g.pix py.toNat px.toNat = 1 then (true, near)
        else scanFeatureCoords tr2 rc2 g rest
          (near || decide (floodedInWindow g.rows g.cols g.pix py.toNat px.toNat))
      else scanFeatureCoords tr2 rc2 g rest near

/-- A road line feature, as produced by `overpass_to_geojson` and consumed
by `analyze_road_impact` and `convert_coordinates_to_road_names`: the
GeoJSON geometry type, the optional `name` and `highway` property tags, and
the vertex list `(lon, lat)`. -/
structure RoadFeature where
  geoType : String
  name : Option String
  highway : Option String
  coords : List (ℚ × ℚ)
deriving DecidableEq, Repr

/-- Outcome of `analyze_road_impact` for one feature. -/
inductive ImpactClass
  | flooded
  | nearFlood
  | clear
deriving DecidableEq, Repr

/-- Classification of one road feature by `analyze_road_impact`: the
feature joins `affected_roads` when some vertex pixel is flooded, else
`near_flood_roads` when the neighborhood flag was raised (`elif`). -/
def classifyFeature (tr2 : ℚ × ℚ → ℚ × ℚ) (rc2 : ℚ × ℚ → Option (ℤ × ℤ))
    (g : FloodGrid) (f : RoadFeature) : ImpactClass :=
  match scanFeatureCoords tr2 rc2 g f.coords false with
  | (true, _) => .flooded
  | (false, true) => .nearFlood
  | (false, false) => .clear

/-- `analyze_road_impact` (disaster_management.py lines 40-76): the pair
`(affected_roads, near_flood_roads)` in input order. -/
def analyze_road_impact (tr2 : ℚ × ℚ → ℚ × ℚ) (rc2 : ℚ × ℚ → Option (ℤ × ℤ))
    (g : FloodGrid) (features : List RoadFeature) :
    List RoadFeature × List RoadFeature :=
  (features.filter (fun f => classifyFeature tr2 rc2 g f == ImpactClass.flooded),
   features.filter (fun f => classifyFeature tr2 rc2 g f == ImpactClass.nearFlood))

/-- A coordinate scores an exact flooded pixel against raster `r` in the
route analyzer: the WGS84 bounds contain it, `rowcol` succeeds, the pixel
index is in range, and the pixel value is 1. -/
def rasterExactHit (tr : TransformerMap) (rc : RowColMap) (r : Raster)
    (coord : ℚ × ℚ) : Prop :=
  (r.minLon ≤ coord.1 ∧ coord.1 ≤ r.maxLon ∧
    r.minLat ≤ coord.2 ∧ coord.2 ≤ r.maxLat) ∧
  ∃ p : ℤ × ℤ, rc r (tr r.crs coord) = some p ∧
    (0 ≤ p.1 ∧ p.1 < (r.rows : ℤ) ∧ 0 ≤ p.2 ∧ p.2 < (r.cols : ℤ)) ∧
    r.pix p.1.toNat p.2.toNat = 1

/-- A vertex scores an exact flooded pixel in `analyze_road_impact`. -/
def gridExactHit (tr2 : ℚ × ℚ → ℚ × ℚ) (rc2 : ℚ × ℚ → Option (ℤ × ℤ))
    (g : FloodGrid) (c : ℚ × ℚ) : Prop :=
  ∃ p : ℤ × ℤ, rc2 (tr2 c) = some p ∧
    (0 ≤ p.2 ∧ p.2 < (g.cols : ℤ) ∧ 0 ≤ p.1 ∧ p.1 < (g.rows : ℤ)) ∧
    g.pix p.1.toNat p.2.toNat = 1

/-- A vertex raises the near-flood flag in `analyze_road_impact`: `rowcol`
succeeds, the pixel index is in range, and the ±3 window holds a flooded
pixel. -/
def gridWindowHit (tr2 : ℚ × ℚ → ℚ × ℚ) (rc2 : ℚ × ℚ → Option (ℤ × ℤ))
    (g : FloodGrid) (c : ℚ × ℚ) : Prop :=
  ∃ p : ℤ × ℤ, rc2 (tr2 c) = some p ∧
    (0 ≤ p.2 ∧ p.2 < (g.cols : ℤ) ∧ 0 ≤ p.1 ∧ p.1 < (g.rows : ℤ)) ∧
    floodedInWindow g.rows g.cols g.pix p.1.toNat p.2.toNat

/-- The cache key of the `st.cache_data` wrapper around
`get_flood_overlay_from_n8n`: the tile bounding box and the analysis
date. -/
structure CacheKey where
  bbox : BBox
  analysis_date : String
deriving DecidableEq, Repr

/-- Association-list lookup of the memoization cache. -/
def cacheLookup {V : Type} : List (CacheKey × V) → CacheKey → Option V
  | [], _ => none
  | (k2, v) :: rest, k => if k2 = k then some v else cacheLookup rest k

/-- The `st.cache_data` memoization discipline on
`get_flood_overlay_from_n8n`: on a hit return the cached value, on a miss
invoke the wrapped function once and record its result (also when the
result is `None`, since the wrapped function catches its own exceptions).
The last component counts wrapped-function invocations (0 or 1). -/
def cachedCall {V : Type} (provider : CacheKey → V) (cache : List (CacheKey × V))
    (k : CacheKey) : V × List (CacheKey × V) × ℕ :=
  match cacheLookup cache k with
  | some v => (v, cache, 0)
  | none => (provider k, (k, provider k) :: cache, 1)

/-- `get_flood_overlay_from_n8n` (flood_detection.py lines 100-113) with
the external n8n round-trip as a parameter: a provider error of any kind
(RequestException as well as any other exception, covering HTTP errors and
missing payload fields) is caught and becomes `None`. -/
def get_flood_overlay_from_n8n (provider : BBox → Except String Raster)
    (bbox : BBox) : Option Raster :=
  match provider bbox with
  | .ok r => some r
  | .error _ => none

/-- `process_flood_tiles` (flood_detection.py lines 370-397): iterate over
all tiles in order, appending each overlay that is not `None`. -/
def process_flood_tiles (provider : BBox → Except String Raster) :
    List BBox → List Raster
  | [] => []
  | t :: rest =>
    match get_flood_overlay_from_n8n provider t with
    | some d => d :: process_flood_tiles provider rest
    | none => process_flood_tiles provider rest

/-- The demand vector of the route planner (tabs/route_planner.py line 86):
`[0] + [1] * (n - 1)` for a distance matrix of size `n`. -/
def demands (n : ℕ) : List ℕ := 0 :: List.replicate (n - 1) 1

/-- Whether the planner adds disjunctions (optional stops with penalty
1000000): only when more than one destination is selected
(tabs/route_planner.py lines 80-83). -/
def disjunction_added (numSelected : ℕ) : Bool := decide (1 < numSelected)

/-- The per-vehicle capacity of the multi-destination branch
(tabs/route_planner.py line 91): `max(total_demand // num_vehicles + 1, 1)`
with `total_demand = sum(demands)`. -/
def vehicle_capacity (n V : ℕ) : ℕ := max ((demands n).sum / V + 1) 1

/-- The capacity vector (tabs/route_planner.py lines 86-92): every vehicle
gets `len(demands)` when exactly one destination is selected, else
`vehicle_capacity`. -/
def vehicle_capacities (numSelected n V : ℕ) : List ℕ :=
  if numSelected = 1 then List.replicate V (demands n).length
  else List.replicate V (vehicle_capacity n V)

/-- Ceiling division on ℕ.  This is the quantity named by the
specification ("total non-depot demand divided evenly across vehicles,
rounded up"), kept separate so it can be compared with the source's
capacity. -/
def ceilDiv (a b : ℕ) : ℕ := (a + b - 1) / b

/-- The set of vehicles serving at least one stop in a feasible solution.
OR-Tools solutions without disjunctions visit every non-depot node exactly
once, so a solution restricted to stop assignment is a function from stops
to vehicles; a vehicle outside this set has a depot-only route. -/
def vehiclesWithStops (numStops V : ℕ) (assign : Fin numStops → Fin V) :
    Finset (Fin V) :=
  Finset.univ.filter (fun v => ∃ s, assign s = v)

/-- Squared euclidean distance in degree coordinates.  The source compares
`((lon - road_lon)**2 + (lat - road_lat)**2)**0.5` against thresholds; the
square root is strictly monotone on nonnegative reals, so the model keeps
squared distances and squares the `0.001`-degree threshold to
`1/1000000`. -/
def distSq (p q : ℚ × ℚ) : ℚ := (p.1 - q.1)^2 + (p.2 - q.2)^2

/-- One step of the closest-road scan of `convert_coordinates_to_road_names`
(tabs/disaster_management.py lines 45-51): update the running strictly
smallest (squared) distance and its first attaining feature; `none` plays
the role of the initial `min_distance = inf`, `closest_road = None`. -/
def updateBest (p : ℚ × ℚ) (f : RoadFeature)
    (acc : Option (ℚ × RoadFeature)) (v : ℚ × ℚ) : Option (ℚ × RoadFeature) :=
  match acc with
  | none => some (distSq p v, f)
  | some (d, bf) => if distSq p v < d then some (distSq p v, f) else some (d, bf)

/-- The per-feature step of the closest-road scan: LineString features
contribute all their vertices, other features are skipped
(tabs/disaster_management.py line 43). -/
def featStep (p : ℚ × ℚ) (acc : Option (ℚ × RoadFeature)) (f : RoadFeature) :
    Option (ℚ × RoadFeature) :=
  if f.geoType = "LineString" then f.coords.foldl (updateBest p f) acc else acc

/-- The closest-road scan (tabs/disaster_management.py lines 39-51): fold
over all LineString features and their vertices. -/
def closestRoad (p : ℚ × ℚ) (features : List RoadFeature) :
    Option (ℚ × RoadFeature) :=
  features.foldl (featStep p) none

/-- The user-facing road description (tabs/disaster_management.py lines
59-64). -/
def roadDesc (rname rtype : String) : String :=
  if rtype = "motorway" ∨ rtype = "trunk" then "🛣️ " ++ rname ++ " (Major road)"
  else if rtype = "primary" ∨ rtype = "secondary" then "🚗 " ++ rname ++ " (Main road)"
  else "🛤️ " ++ rname ++ " (Local road)"

/-- One aggregation bucket of `road_groups`. -/
structure RoadGroup where
  name : String
  rtype : String
  description : String
  affected_points : ℕ
  coordinates : List (ℚ × ℚ)
deriving DecidableEq, Repr

/-- Increment the group keyed `desc`, appending the `[lat, lon]` pair
(Python 3.7 dicts preserve insertion order). -/
def bumpGroup : List (String × RoadGroup) → String → ℚ × ℚ → List (String × RoadGroup)
  | [], _, _ => []
  | (k, g) :: rest, desc, c =>
    if k = desc then
      (k, { g with affected_points := g.affected_points + 1,
                   coordinates := g.coordinates ++ [c] }) :: rest
    else (k, g) :: bumpGroup rest desc c

/-- Whether a group keyed `desc` already exists. -/
def hasGroup (groups : List (String × RoadGroup)) (desc : String) : Bool :=
  groups.any (fun kg => kg.1 == desc)

/-- Processing of one affected segment
(tabs/disaster_management.py lines 35-76): find the closest road vertex
over all LineString features; attach the point only when a closest feature
exists and its (squared) distance is strictly below the (squared) `0.001`
threshold; otherwise the segment contributes to no group. -/
def processSegment (features : List RoadFeature)
    (groups : List (String × RoadGroup)) (seg : AffectedSegment) :
    List (String × RoadGroup) :=
  match closestRoad seg.coordinate features with
  | none => groups
  | some (d, f) =>
    if d < mkRat 1 1000000 then
      let rname := f.name.getD "Unnamed Road"
      let rtype := f.highway.getD "local"
      let desc := roadDesc rname rtype
      let groups2 := if hasGroup groups desc then groups
        else groups ++ [(desc, ⟨rname, rtype, desc, 0, []⟩)]
      bumpGroup groups2 desc (seg.coordinate.2, seg.coordinate.1)
    else groups

/-- A user-facing road impact entry
(tabs/disaster_management.py lines 79-98). -/
structure RoadImpact where
  description : String
  name : String
  severity : String
  affected_points : ℕ
  coordinates : List (ℚ × ℚ)
deriving DecidableEq, Repr

/-- `convert_coordinates_to_road_names` (tabs/disaster_management.py lines
10-100), with the Overpass road fetch as an `Except` parameter: empty input
short-circuits to `[]`; a provider failure falls back to the single
area-bucket entry covering every segment; otherwise segments are grouped by
closest road and severity is `"Severely flooded"` strictly above 5
points. -/
def convert_coordinates_to_road_names
    (roadData : Except String (List RoadFeature))
    (segments : List AffectedSegment) : List RoadImpact :=
  if segments.isEmpty then []
  else
    match roadData with
    | .error _ =>
      [⟨"🛤️ Roads near Fishlake area", "Local roads", "Multiple sections flooded",
        segments.length, segments.map (fun s => (s.coordinate.2, s.coordinate.1))⟩]
    | .ok features =>
      (segments.foldl (processSegment features) []).map (fun kg =>
        ⟨kg.2.description, kg.2.name,
         if kg.2.affected_points > 5 then "Severely flooded" else "Partially flooded",
         kg.2.affected_points, kg.2.coordinates⟩)

/-- The stored results of `render_improved_hazard_analysis`
(tabs/disaster_management.py lines 284-290). -/
structure AnalysisResults where
  total_affected : ℕ
  flood_data_found : Bool
  all_flood_rasters : List Raster
  road_impacts : List RoadImpact
  affected_segments : List AffectedSegment

/-- The analysis pipeline of the Route Safety tab
(tabs/disaster_management.py lines 254-290): process the tiles, analyze
each vehicle's route separately, count the vehicles with hits, convert hits
to road names, and store the results with
`flood_data_found = bool(all_flood_rasters)`. -/
def run_improved_analysis (tr : TransformerMap) (rc : RowColMap)
    (provider : BBox → Except String Raster)
    (roadData : Except String (List RoadFeature))
    (route_data : List (ℕ × List (ℚ × ℚ))) (tiles : List BBox) :
    AnalysisResults :=
  let rasters := process_flood_tiles provider tiles
  let per := route_data.map
    (fun v => analyze_road_flood_impact_improved tr rc [v] rasters)
  let segs := per.flatten
  ⟨(per.filter (fun l => !l.isEmpty)).length, !rasters.isEmpty, rasters,
   convert_coordinates_to_road_names roadData segs, segs⟩

/-- The results panel (tabs/disaster_management.py lines 385-425): the
safety alert when any vehicle is affected, else the "route clear" banner
when flood data was found, else the "no flood data" warning. -/
def report (r : AnalysisResults) : String :=
  if r.total_affected > 0 then "🚨 ROUTE SAFETY ALERT"
  else if r.flood_data_found then
    "✅ ROUTE CLEAR - No flood hazards detected on your route"
  else "⚠️ NO FLOOD DATA - Could not retrieve current flood information"

/-- The no-solution branch of the route planner (tabs/route_planner.py
lines 220-223): report the error and delete `route_data` from session
state when present.  Session state is modelled as a partial map. -/
def no_solution_branch {α : Type} (s : String → Option α) :
    String × (String → Option α) :=
  ("❌ Could not generate optimal route.",
   if (s "route_data").isSome then
     (fun k => if k = "route_data" then none else s k)
   else s)

/-- Identity transformer (a concrete `TransformerMap` instance used by
witnesses). -/
def idTransformer : TransformerMap := fun _ p => p

/-- Floor-based `rowcol` for a unit geotransform: row from latitude, column
from longitude (a concrete `RowColMap` instance used by witnesses). -/
def floorRowCol : RowColMap := fun _ p => some (⌊p.2⌋, ⌊p.1⌋)

/-- A raster whose pixel `(1, 2)` is flooded but whose pixel `(1, 1)` is
not: for the coordinate `(1, 1)` an exact near-miss with a flooded ±3
neighborhood. -/
def nearMissRaster : Raster :=
  ⟨0, 0, 2, 2, 4326, 8, 8, fun py px => if py = 1 ∧ px = 2 then 1 else 0⟩

/-- A raster whose pixel `(1, 1)` is flooded: an exact hit for the
coordinate `(1, 1)`. -/
def exactHitRaster : Raster :=
  ⟨0, 0, 2, 2, 4326, 8, 8, fun py px => if py = 1 ∧ px = 1 then 1 else 0⟩

/-- A road feature whose single vertex `(1, 1)` is far (squared distance 2)
from the origin. -/
def farRoad : RoadFeature := ⟨"LineString", some "A614", some "trunk", [(1, 1)]⟩

/-- A road feature whose single vertex is the origin itself. -/
def nearRoad : RoadFeature :=
  ⟨"LineString", some "B1396", some "secondary", [(0, 0)]⟩

/-- An affected segment flagged at the origin. -/
def segAtOrigin : AffectedSegment := ⟨1, 0, (0, 0), 0, (0, 0), 1⟩

theorem mem_arange {a b s x : ℚ} :
    x ∈ arange a b s ↔ ∃ i, i < arangeLen a b s ∧ x = a + (i : ℚ) * s := by
  constructor
  · intro hx
    obtain ⟨i, hi, hfx⟩ := List.mem_map.mp hx
    exact ⟨i, List.mem_range.mp hi, hfx.symm⟩
  · rintro ⟨i, hi, rfl⟩
    exact List.mem_map.mpr ⟨i, List.mem_range.mpr hi, rfl⟩

theorem mem_generate_tiles {bbox : BBox} {s : ℚ} {t : BBox} :
    t ∈ generate_tiles bbox s ↔
      ∃ i j, i < arangeLen bbox.minLon bbox.maxLon s ∧
        j < arangeLen bbox.minLat bbox.maxLat s ∧
        t = ⟨bbox.minLon + (i : ℚ) * s, bbox.minLat + (j : ℚ) * s,
             bbox.minLon + (i : ℚ) * s + s, bbox.minLat + (j : ℚ) * s + s⟩ := by
  simp only [generate_tiles, List.mem_flatMap, List.mem_map]
  constructor
  · rintro ⟨lon, hlon, lat, hlat, rfl⟩
    obtain ⟨i, hi, rfl⟩ := mem_arange.mp hlon
    obtain ⟨j, hj, rfl⟩ := mem_arange.mp hlat
    exact ⟨i, j, hi, hj, rfl⟩
  · rintro ⟨i, j, hi, hj, rfl⟩
    exact ⟨_, mem_arange.mpr ⟨i, hi, rfl⟩, _, mem_arange.mpr ⟨j, hj, rfl⟩, rfl⟩

/-- Coverage of a one-dimensional `arange` grid: every `x` in `[a, b]`
lies in `[v, v + s]` for some grid value `v`. -/
theorem arange_cover {a b s x : ℚ} (hs : 0 < s) (hab : a < b)
    (h1 : a ≤ x) (h2 : x ≤ b) :
    ∃ v ∈ arange a b s, v ≤ x ∧ x ≤ v + s := by
  have hceil : (0 : ℤ) < ⌈(b - a) / s⌉ := Int.ceil_pos.mpr (div_pos (by linarith) hs)
  have hlen : ((arangeLen a b s : ℤ)) = ⌈(b - a) / s⌉ := by
    rw [arangeLen]; exact Int.toNat_of_nonneg (le_of_lt hceil)
  have hnpos : 0 < arangeLen a b s := by omega
  have hK0 : (0 : ℤ) ≤ ⌊(x - a) / s⌋ :=
    Int.floor_nonneg.mpr (div_nonneg (by linarith) (le_of_lt hs))
  by_cases hcase : (⌊(x - a) / s⌋).toNat < arangeLen a b s
  · refine ⟨a + ((⌊(x - a) / s⌋).toNat : ℚ) * s,
      mem_arange.mpr ⟨_, hcase, rfl⟩, ?_, ?_⟩
    · have hfl : ((⌊(x - a) / s⌋ : ℤ) : ℚ) ≤ (x - a) / s := Int.floor_le _
      have hc : (((⌊(x - a) / s⌋).toNat : ℕ) : ℚ) = ((⌊(x - a) / s⌋ : ℤ) : ℚ) := by
        exact_mod_cast congrArg (fun z : ℤ => (z : ℚ)) (Int.toNat_of_nonneg hK0)
      have := (le_div_iff₀ hs).mp hfl
      rw [hc]; linarith
    · have hfl : (x - a) / s < ((⌊(x - a) / s⌋ : ℤ) : ℚ) + 1 := Int.lt_floor_add_one _
      have hc : (((⌊(x - a) / s⌋).toNat : ℕ) : ℚ) = ((⌊(x - a) / s⌋ : ℤ) : ℚ) := by
        exact_mod_cast congrArg (fun z : ℤ => (z : ℚ)) (Int.toNat_of_nonneg hK0)
      have := (div_lt_iff₀ hs).mp hfl
      rw [hc]; linarith
  · have hge : arangeLen a b s ≤ (⌊(x - a) / s⌋).toNat := le_of_not_lt hcase
    refine ⟨a + ((arangeLen a b s - 1 : ℕ) : ℚ) * s,
      mem_arange.mpr ⟨_, by omega, rfl⟩, ?_, ?_⟩
    · have hKQ : ((arangeLen a b s : ℚ) - 1) ≤ ((⌊(x - a) / s⌋ : ℤ) : ℚ) := by
        have : (arangeLen a b s : ℤ) - 1 ≤ ⌊(x - a) / s⌋ := by omega
        exact_mod_cast this
      have hfl : ((⌊(x - a) / s⌋ : ℤ) : ℚ) ≤ (x - a) / s := Int.floor_le _
      have hle : ((arangeLen a b s : ℚ) - 1) ≤ (x - a) / s := le_trans hKQ hfl
      have hmul := (le_div_iff₀ hs).mp hle
      have hc : (((arangeLen a b s - 1 : ℕ) : ℕ) : ℚ) = (arangeLen a b s : ℚ) - 1 := by
        have : ((arangeLen a b s - 1 : ℕ) : ℤ) = (arangeLen a b s : ℤ) - 1 := by omega
        exact_mod_cast this
      rw [hc]; linarith
    · have hceilQ : (b - a) / s ≤ ((⌈(b - a) / s⌉ : ℤ) : ℚ) := Int.le_ceil _
      have hlenQ : ((⌈(b - a) / s⌉ : ℤ) : ℚ) = (arangeLen a b s : ℚ) := by
        exact_mod_cast congrArg (fun z : ℤ => (z : ℚ)) hlen.symm
      have hmul := (div_le_iff₀ hs).mp hceilQ
      have hc : (((arangeLen a b s - 1 : ℕ) : ℕ) : ℚ) = (arangeLen a b s : ℚ) - 1 := by
        have : ((arangeLen a b s - 1 : ℕ) : ℤ) = (arangeLen a b s : ℤ) - 1 := by omega
        exact_mod_cast this
      rw [hc]
      rw [hlenQ] at hmul
      linarith

/-- Two cells of a one-dimensional grid with step `s` anchored at `a` have
disjoint interiors. -/
theorem grid_cells_disjoint {a s : ℚ} (hs : 0 < s) {i j : ℕ} (hij : i ≠ j) {x : ℚ}
    (hi1 : a + (i : ℚ) * s < x) (hi2 : x < a + (i : ℚ) * s + s)
    (hj1 : a + (j : ℚ) * s < x) (hj2 : x < a + (j : ℚ) * s + s) : False := by
  rcases Nat.lt_or_ge i j with h | h
  · have hij1 : (i : ℚ) + 1 ≤ (j : ℚ) := by exact_mod_cast h
    have := mul_le_mul_of_nonneg_right hij1 (le_of_lt hs)
    nlinarith
  · have hj' : j < i := lt_of_le_of_ne h (Ne.symm hij)
    have hij1 : (j : ℚ) + 1 ≤ (i : ℚ) := by exact_mod_cast hj'
    have := mul_le_mul_of_nonneg_right hij1 (le_of_lt hs)
    nlinarith

/-- C2: for every bounding box with `min_lon < max_lon` and `min_lat < max_lat`
and every positive tile size, every point inside the outer bounding box lies
within at least one tile produced by `generate_tiles`, and no two distinct
generated tiles overlap in area (their interiors are disjoint, so they may
share only edges). -/
theorem generate_tiles_cover_and_nonoverlap (bbox : BBox) (s : ℚ)
    (hs : 0 < s) (hlon : bbox.minLon < bbox.maxLon) (hlat : bbox.minLat < bbox.maxLat) :
    (∀ lon lat, insideBBox bbox lon lat →
        ∃ t ∈ generate_tiles bbox s, insideBBox t lon lat) ∧
    (∀ t1 ∈ generate_tiles bbox s, ∀ t2 ∈ generate_tiles bbox s, t1 ≠ t2 →
        ∀ lon lat, strictlyInside t1 lon lat → ¬ strictlyInside t2 lon lat) := by
  constructor
  · rintro lon lat ⟨h1, h2, h3, h4⟩
    obtain ⟨vlon, hvlon, hv1, hv2⟩ := arange_cover hs hlon h1 h2
    obtain ⟨vlat, hvlat, hv3, hv4⟩ := arange_cover hs hlat h3 h4
    refine ⟨⟨vlon, vlat, vlon + s, vlat + s⟩, ?_, hv1, hv2, hv3, hv4⟩
    exact List.mem_flatMap.mpr ⟨vlon, hvlon, List.mem_map.mpr ⟨vlat, hvlat, rfl⟩⟩
  · intro t1 ht1 t2 ht2 hne lon lat hin1 hin2
    obtain ⟨i1, j1, hi1, hj1, rfl⟩ := mem_generate_tiles.mp ht1
    obtain ⟨i2, j2, hi2, hj2, rfl⟩ := mem_generate_tiles.mp ht2
    obtain ⟨p1, p2, p3, p4⟩ := hin1
    obtain ⟨q1, q2, q3, q4⟩ := hin2
    simp only at p1 p2 p3 p4 q1 q2 q3 q4
    by_cases hii : i1 = i2
    · subst hii
      have hjj : j1 ≠ j2 := by
        intro hjj; exact hne (by rw [hjj])
      exact grid_cells_disjoint hs hjj p3 p4 q3 q4
    · exact grid_cells_disjoint hs hii p1 p2 q1 q2

/-- Witness for C2 at a concrete bounding box and tile size. -/
theorem generate_tiles_cover_and_nonoverlap_witness :
    (∀ lon lat, insideBBox ⟨0, 0, 1/10, 1/10⟩ lon lat →
        ∃ t ∈ generate_tiles ⟨0, 0, 1/10, 1/10⟩ (1/20), insideBBox t lon lat) ∧
    (∀ t1 ∈ generate_tiles ⟨0, 0, 1/10, 1/10⟩ (1/20),
        ∀ t2 ∈ generate_tiles ⟨0, 0, 1/10, 1/10⟩ (1/20), t1 ≠ t2 →
        ∀ lon lat, strictlyInside t1 lon lat → ¬ strictlyInside t2 lon lat) :=
  generate_tiles_cover_and_nonoverlap ⟨0, 0, 1/10, 1/10⟩ (1/20)
    (by norm_num) (by norm_num) (by norm_num)

/-- C3: under the `st.cache_data` memoization of
`get_flood_overlay_from_n8n`, two lookups with the same (bounding box,
analysis date) key invoke the wrapped provider call at most once in total:
the first lookup makes at most one call, and the repeated lookup is a cache
hit that returns the first result with zero further calls. -/
theorem repeated_lookup_hits_cache {V : Type} (provider : CacheKey → V)
    (cache : List (CacheKey × V)) (k : CacheKey) :
    (cachedCall provider (cachedCall provider cache k).2.1 k).2.2 = 0 ∧
    (cachedCall provider (cachedCall provider cache k).2.1 k).1 =
      (cachedCall provider cache k).1 ∧
    (cachedCall provider cache k).2.2 ≤ 1 := by
  cases h : cacheLookup cache k with
  | some v => simp [cachedCall, h]
  | none => simp [cachedCall, h, cacheLookup]

/-- C4: a failed provider call yields `None` for that tile rather than
raising, and the tile loop continues with the remaining tiles, every tile
being visited: the final overlay list is exactly the successful lookups in
order, so one failed tile never aborts the overall analysis. -/
theorem provider_failure_localized :
    (∀ (provider : BBox → Except String Raster) (t : BBox) (e : String),
      provider t = .error e → get_flood_overlay_from_n8n provider t = none) ∧
    (∀ (provider : BBox → Except String Raster) (t : BBox) (rest : List BBox),
      get_flood_overlay_from_n8n provider t = none →
      process_flood_tiles provider (t :: rest) = process_flood_tiles provider rest) ∧
    (∀ (provider : BBox → Except String Raster) (tiles : List BBox),
      process_flood_tiles provider tiles =
        tiles.filterMap (get_flood_overlay_from_n8n provider)) := by
  refine ⟨?_, ?_, ?_⟩
  · intro provider t e he
    simp [get_flood_overlay_from_n8n, he]
  · intro provider t rest h
    simp only [process_flood_tiles]
    rw [h]
  · intro provider tiles
    induction tiles with
    | nil => rfl
    | cons t rest ih =>
      simp only [process_flood_tiles, List.filterMap_cons]
      cases h : get_flood_overlay_from_n8n provider t <;> simp [h, ih]

/-- Witness for C4 with a provider that always fails. -/
theorem provider_failure_localized_witness :
    get_flood_overlay_from_n8n (fun _ => Except.error "timeout") ⟨0, 0, 1, 1⟩ = none ∧
    process_flood_tiles (fun _ => Except.error "timeout") [⟨0, 0, 1, 1⟩, ⟨1, 0, 2, 1⟩] =
      process_flood_tiles (fun _ => Except.error "timeout") [⟨1, 0, 2, 1⟩] :=
  ⟨provider_failure_localized.1 _ ⟨0, 0, 1, 1⟩ "timeout" rfl,
   provider_failure_localized.2.1 _ ⟨0, 0, 1, 1⟩ [⟨1, 0, 2, 1⟩]
     (provider_failure_localized.1 _ ⟨0, 0, 1, 1⟩ "timeout" rfl)⟩

/-- C5 counterexample: with 3 selected destinations (matrix size 4, total
non-depot demand 3) and 2 vehicles the source computes capacity
`3 // 2 + 1 = 2`, while the claimed `ceil(3 / 2) + 1 = 3`. -/
theorem capacity_not_ceil_plus_one_counterexample :
    vehicle_capacity 4 2 = 2 ∧ ceilDiv 3 2 + 1 = 3 ∧
    vehicle_capacity 4 2 ≠ ceilDiv 3 2 + 1 := by
  refine ⟨by decide, by decide, by decide⟩

/-- C5 amended: for more than one selected destination, each vehicle's
capacity equals `total_demand // num_vehicles + 1` (floor division plus
one).  The combined fleet capacity still covers the total demand, and when
the vehicle count does not divide the total demand the capacity equals the
rounded-up even share (without the extra unit the claim adds). -/
theorem vehicle_capacity_floor_plus_one (numSel V : ℕ)
    (h1 : 1 < numSel) (hV : 0 < V) :
    vehicle_capacity (numSel + 1) V = numSel / V + 1 ∧
    numSel ≤ V * (numSel / V + 1) ∧
    (¬ V ∣ numSel → vehicle_capacity (numSel + 1) V = ceilDiv numSel V) := by
  have hsum : (demands (numSel + 1)).sum = numSel := by
    simp [demands]
  have hcap : vehicle_capacity (numSel + 1) V = numSel / V + 1 := by
    rw [vehicle_capacity, hsum]
    exact Nat.max_eq_left (Nat.le_add_left 1 _)
  have hmlt : numSel % V < V := Nat.mod_lt _ hV
  refine ⟨hcap, ?_, ?_⟩
  · calc numSel = V * (numSel / V) + numSel % V := (Nat.div_add_mod numSel V).symm
      _ ≤ V * (numSel / V) + V := Nat.add_le_add_left (Nat.le_of_lt hmlt) _
      _ = V * (numSel / V + 1) := by ring
  · intro hnd
    have hr0 : numSel % V ≠ 0 := fun h => hnd (Nat.dvd_of_mod_eq_zero h)
    have hdm : V * (numSel / V) + numSel % V = numSel := Nat.div_add_mod numSel V
    rw [hcap, ceilDiv]
    have hkey : numSel + V - 1 = (numSel % V - 1) + V * (numSel / V + 1) := by
      have h2 : V * (numSel / V + 1) = V * (numSel / V) + V := by ring
      rw [h2]
      set A := V * (numSel / V) with hA
      set B := numSel % V with hB
      omega
    rw [hkey, Nat.add_mul_div_left _ _ hV,
      Nat.div_eq_of_lt (lt_of_le_of_lt (Nat.sub_le _ _) hmlt), Nat.zero_add]

/-- Witness for C5 amended at 3 destinations and 2 vehicles. -/
theorem vehicle_capacity_floor_plus_one_witness :
    vehicle_capacity 4 2 = 3 / 2 + 1 ∧
    3 ≤ 2 * (3 / 2 + 1) ∧
    (¬ 2 ∣ 3 → vehicle_capacity 4 2 = ceilDiv 3 2) :=
  vehicle_capacity_floor_plus_one 3 2 (by decide) (by decide)

/-- C7: with exactly one selected destination no disjunction is added,
every vehicle's capacity is relaxed to the full node count, and any
feasible assignment of the single mandatory stop among 2 vehicles gives
exactly one vehicle a non-trivial route (the other stays depot-only). -/
theorem single_stop_no_penalty_one_vehicle :
    disjunction_added 1 = false ∧
    (∀ n V, 1 ≤ n → vehicle_capacities 1 n V = List.replicate V n) ∧
    (∀ assign : Fin 1 → Fin 2, (vehiclesWithStops 1 2 assign).card = 1) := by
  refine ⟨rfl, ?_, ?_⟩
  · intro n V hn
    have hlen : (demands n).length = n := by
      simp [demands]
      omega
    rw [vehicle_capacities, if_pos rfl, hlen]
  · intro assign
    have hset : vehiclesWithStops 1 2 assign = {assign 0} := by
      ext v
      simp only [vehiclesWithStops, Finset.mem_filter, Finset.mem_univ, true_and,
        Finset.mem_singleton]
      constructor
      · rintro ⟨s, hs⟩
        rw [show s = 0 from Subsingleton.elim s 0] at hs
        exact hs.symm
      · intro hv
        exact ⟨0, hv.symm⟩
    rw [hset, Finset.card_singleton]

/-- Witness for C7 at node count 2 and a concrete assignment. -/
theorem single_stop_no_penalty_one_vehicle_witness :
    vehicle_capacities 1 2 2 = List.replicate 2 2 ∧
    (vehiclesWithStops 1 2 (fun _ => 0)).card = 1 :=
  ⟨single_stop_no_penalty_one_vehicle.2.1 2 2 (by decide),
   single_stop_no_penalty_one_vehicle.2.2 (fun _ => 0)⟩

/-- C10: the no-solution branch of the route planner reports the failure
and leaves session state with no `route_data` entry, whether or not one was
present before. -/
theorem no_solution_clears_route_data {α : Type} (s : String → Option α) :
    (no_solution_branch s).1 = "❌ Could not generate optimal route." ∧
    (no_solution_branch s).2 "route_data" = none := by
  refine ⟨rfl, ?_⟩
  cases h : s "route_data" with
  | none => simp [no_solution_branch, h]
  | some v => simp [no_solution_branch, h]

/-- C1 counterexample: a route coordinate inside the raster, whose exact
pixel `(1, 1)` is not flooded while pixel `(1, 2)` in its ±3 neighborhood
is flooded, is not recorded at all by the route hazard intersection
analysis - no near-flood classification exists for route coordinates. -/
theorem near_flood_route_point_unrecorded_counterexample :
    (nearMissRaster.minLon ≤ 1 ∧ (1 : ℚ) ≤ nearMissRaster.maxLon ∧
      nearMissRaster.minLat ≤ 1 ∧ (1 : ℚ) ≤ nearMissRaster.maxLat) ∧
    floorRowCol nearMissRaster (idTransformer nearMissRaster.crs (1, 1)) =
      some (1, 1) ∧
    nearMissRaster.pix 1 1 ≠ 1 ∧
    floodedInWindow nearMissRaster.rows nearMissRaster.cols nearMissRaster.pix 1 1 ∧
    analyze_road_flood_impact_improved idTransformer floorRowCol
      [(0, [(1, 1)])] [nearMissRaster] = [] := by
  refine ⟨by decide, by decide, by decide, by decide, by decide⟩

theorem findFloodHit_eq_none {tr : TransformerMap} {rc : RowColMap} {c : ℚ × ℚ}
    {rasters : List Raster} (h : ∀ r ∈ rasters, ¬ rasterExactHit tr rc r c) :
    ∀ idx, findFloodHit tr rc c rasters idx = none := by
  induction rasters with
  | nil => intro idx; rfl
  | cons r rest ih =>
    intro idx
    have hr := h r (List.mem_cons_self r rest)
    have hrest : ∀ r2 ∈ rest, ¬ rasterExactHit tr rc r2 c :=
      fun r2 h2 => h r2 (List.mem_cons_of_mem r h2)
    simp only [findFloodHit]
    split
    · rename_i hb
      cases hp : rc r (tr r.crs c) with
      | none => exact ih hrest (idx + 1)
      | some p =>
        obtain ⟨py, px⟩ := p
        simp only
        split
        · rename_i hbp
          split
          · rename_i hpix
            exact absurd ⟨hb, (py, px), hp, hbp, hpix⟩ hr
          · exact ih hrest (idx + 1)
        · exact ih hrest (idx + 1)
    · exact ih hrest (idx + 1)

theorem findFloodHit_isSome_spec {tr : TransformerMap} {rc : RowColMap}
    {c : ℚ × ℚ} {rasters : List Raster} {idx : ℕ} {h : ℕ × ℤ × ℤ}
    (hfind : findFloodHit tr rc c rasters idx = some h) :
    ∃ r ∈ rasters, rasterExactHit tr rc r c := by
  by_contra hno
  push_neg at hno
  rw [findFloodHit_eq_none hno idx] at hfind
  exact Option.noConfusion hfind

theorem scan_no_exact {tr2 : ℚ × ℚ → ℚ × ℚ} {rc2 : ℚ × ℚ → Option (ℤ × ℤ)}
    {g : FloodGrid} :
    ∀ {coords : List (ℚ × ℚ)},
      (∀ c ∈ coords, ¬ gridExactHit tr2 rc2 g c) → ∀ near,
      (scanFeatureCoords tr2 rc2 g coords near).1 = false ∧
      ((scanFeatureCoords tr2 rc2 g coords near).2 = true ↔
        near = true ∨ ∃ c ∈ coords, gridWindowHit tr2 rc2 g c) := by
  intro coords
  induction coords with
  | nil =>
    intro _ near
    refine ⟨rfl, ?_⟩
    simp [scanFeatureCoords]
  | cons c0 rest ih =>
    intro h near
    have hc0 := h c0 (List.mem_cons_self c0 rest)
    have hrest : ∀ c ∈ rest, ¬ gridExactHit tr2 rc2 g c :=
      fun c2 h2 => h c2 (List.mem_cons_of_mem c0 h2)
    simp only [scanFeatureCoords]
    cases hp : rc2 (tr2 c0) with
    | none =>
      have hnohit : ¬ gridWindowHit tr2 rc2 g c0 := by
        rintro ⟨p, hp2, _, _⟩
        rw [hp] at hp2
        exact Option.noConfusion hp2
      obtain ⟨ih1, ih2⟩ := ih hrest near
      refine ⟨ih1, ?_⟩
      rw [ih2]
      constructor
      · rintro (hn | hex)
        · exact Or.inl hn
        · exact Or.inr ⟨_, List.mem_cons_of_mem c0 hex.choose_spec.1, hex.choose_spec.2⟩
      · rintro (hn | ⟨c2, hc2, hw⟩)
        · exact Or.inl hn
        · rcases List.mem_cons.mp hc2 with rfl | hc2
          · exact absurd hw hnohit
          · exact Or.inr ⟨c2, hc2, hw⟩
    | some p =>
      obtain ⟨py, px⟩ := p
      simp only
      split
      · rename_i hbp
        split
        · rename_i hpix
          exact absurd ⟨(py, px), hp, hbp, hpix⟩ hc0
        · rename_i hpix
          obtain ⟨ih1, ih2⟩ := ih hrest
            (near || decide (floodedInWindow g.rows g.cols g.pix py.toNat px.toNat))
          refine ⟨ih1, ?_⟩
          rw [ih2]
          have hwin : gridWindowHit tr2 rc2 g c0 ↔
              floodedInWindow g.rows g.cols g.pix py.toNat px.toNat := by
            constructor
            · rintro ⟨p2, hp2, _, hw⟩
              rw [hp] at hp2
              cases Option.some.injEq .. ▸ hp2 with
              | refl => exact hw
            · intro hw
              exact ⟨(py, px), hp, hbp, hw⟩
          constructor
          · rintro (hor | hex)
            · rcases Bool.or_eq_true _ _ ▸ hor with hn | hd
              · exact Or.inl hn
              · exact Or.inr ⟨c0, List.mem_cons_self c0 rest,
                  hwin.mpr (of_decide_eq_true hd)⟩
            · exact Or.inr ⟨_, List.mem_cons_of_mem c0 hex.choose_spec.1,
                hex.choose_spec.2⟩
          · rintro (hn | ⟨c2, hc2, hw⟩)
            · exact Or.inl (by rw [hn, Bool.true_or])
            · rcases List.mem_cons.mp hc2 with rfl | hc2
              · exact Or.inl (by
                  rw [decide_eq_true (hwin.mp hw), Bool.or_true])
              · exact Or.inr ⟨c2, hc2, hw⟩
      · rename_i hbp
        have hnohit : ¬ gridWindowHit tr2 rc2 g c0 := by
          rintro ⟨p2, hp2, hb2, _⟩
          rw [hp] at hp2
          cases Option.some.injEq .. ▸ hp2 with
          | refl => exact hbp hb2
        obtain ⟨ih1, ih2⟩ := ih hrest near
        refine ⟨ih1, ?_⟩
        rw [ih2]
        constructor
        · rintro (hn | hex)
          · exact Or.inl hn
          · exact Or.inr ⟨_, List.mem_cons_of_mem c0 hex.choose_spec.1,
              hex.choose_spec.2⟩
        · rintro (hn | ⟨c2, hc2, hw⟩)
          · exact Or.inl hn
          · rcases List.mem_cons.mp hc2 with rfl | hc2
            · exact absurd hw hnohit
            · exact Or.inr ⟨c2, hc2, hw⟩

/-- C1 amended: the route hazard intersection analysis records a coordinate
only on an exact-pixel hit - a coordinate with no exact flooded pixel in
any raster is never recorded, whatever its ±3 neighborhood holds.  The
±3-pixel clamped neighborhood near-flood classification exists only in the
road-feature analysis `analyze_road_impact`, which marks a feature
near-flood when some vertex has a flooded neighborhood and no vertex an
exact flooded pixel. -/
theorem near_flood_only_for_road_features :
    (∀ (tr : TransformerMap) (rc : RowColMap)
        (route_data : List (ℕ × List (ℚ × ℚ))) (rasters : List Raster)
        (c : ℚ × ℚ),
      (∀ r ∈ rasters, ¬ rasterExactHit tr rc r c) →
      ∀ seg ∈ analyze_road_flood_impact_improved tr rc route_data rasters,
        seg.coordinate ≠ c) ∧
    (∀ (tr2 : ℚ × ℚ → ℚ × ℚ) (rc2 : ℚ × ℚ → Option (ℤ × ℤ)) (g : FloodGrid)
        (f : RoadFeature),
      (∀ c ∈ f.coords, ¬ gridExactHit tr2 rc2 g c) →
      (∃ c ∈ f.coords, gridWindowHit tr2 rc2 g c) →
      classifyFeature tr2 rc2 g f = ImpactClass.nearFlood) := by
  constructor
  · intro tr rc route_data rasters c hno seg hseg heq
    unfold analyze_road_flood_impact_improved at hseg
    split at hseg
    · exact absurd hseg (List.not_mem_nil seg)
    · obtain ⟨v, hv, hseg2⟩ := List.mem_flatMap.mp hseg
      obtain ⟨ic, hic, hf⟩ := List.mem_filterMap.mp hseg2
      obtain ⟨hh, hfind, hrec⟩ := Option.map_eq_some'.mp hf
      have hcoord : seg.coordinate = ic.2 := by rw [← hrec]
      rw [heq] at hcoord
      rw [← hcoord] at hfind
      rw [findFloodHit_eq_none hno 0] at hfind
      exact Option.noConfusion hfind
  · intro tr2 rc2 g f hno hwin
    obtain ⟨h1, h2⟩ := scan_no_exact hno false
    have hscan : scanFeatureCoords tr2 rc2 g f.coords false = (false, true) := by
      have h2t : (scanFeatureCoords tr2 rc2 g f.coords false).2 = true :=
        h2.mpr (Or.inr hwin)
      exact Prod.ext h1 h2t
    rw [classifyFeature, hscan]

/-- Witness for C1 amended: the near-miss raster's coordinate is recorded
by no route analysis, and a feature over the same geometry is classified
near-flood by the road-feature analysis. -/
theorem near_flood_only_for_road_features_witness :
    (∀ seg ∈ analyze_road_flood_impact_improved idTransformer floorRowCol
        [(0, [(1, 1)])] [nearMissRaster],
      seg.coordinate ≠ ((1 : ℚ), (1 : ℚ))) ∧
    classifyFeature (fun p => p) (fun p => some (⌊p.2⌋, ⌊p.1⌋))
      ⟨8, 8, nearMissRaster.pix⟩ ⟨"LineString", some "Fishlake Road", some "secondary", [(1, 1)]⟩ =
      ImpactClass.nearFlood := by
  constructor
  · exact near_flood_only_for_road_features.1 idTransformer floorRowCol
      [(0, [(1, 1)])] [nearMissRaster] ((1 : ℚ), (1 : ℚ))
      (by
        intro r hr
        rcases List.mem_singleton.mp hr with rfl
        rintro ⟨-, p, hp, hb, hpix⟩
        have hp2 : p = ((1 : ℤ), (1 : ℤ)) := by
          rw [show floorRowCol nearMissRaster
              (idTransformer nearMissRaster.crs (1, 1)) = some (1, 1) from by decide] at hp
          exact (Option.some.injEq _ _ ▸ hp).symm
        rw [hp2] at hpix
        exact absurd hpix (by decide))
  · exact near_flood_only_for_road_features.2 (fun p => p)
      (fun p => some (⌊p.2⌋, ⌊p.1⌋)) ⟨8, 8, nearMissRaster.pix⟩
      ⟨"LineString", some "Fishlake Road", some "secondary", [(1, 1)]⟩
      (by
        intro c hc
        rcases List.mem_singleton.mp hc with rfl
        rintro ⟨p, hp, hb, hpix⟩
        have hp2 : p = ((1 : ℤ), (1 : ℤ)) := by
          rw [show ((fun p : ℚ × ℚ => some (⌊p.2⌋, ⌊p.1⌋))
                ((fun p : ℚ × ℚ => p) ((1 : ℚ), (1 : ℚ))) : Option (ℤ × ℤ)) =
              some (1, 1) from by decide] at hp
          exact (Option.some.injEq _ _ ▸ hp).symm
        rw [hp2] at hpix
        exact absurd hpix (by decide))
      ⟨(1, 1), List.mem_singleton.mpr rfl,
        ⟨(1, 1), by decide, by decide, by decide⟩⟩

theorem scan_flooded_of_exact {tr2 : ℚ × ℚ → ℚ × ℚ}
    {rc2 : ℚ × ℚ → Option (ℤ × ℤ)} {g : FloodGrid} :
    ∀ {coords : List (ℚ × ℚ)} {c : ℚ × ℚ}, c ∈ coords →
      gridExactHit tr2 rc2 g c → ∀ near,
      (scanFeatureCoords tr2 rc2 g coords near).1 = true := by
  intro coords
  induction coords with
  | nil => intro c hc; exact absurd hc (List.not_mem_nil c)
  | cons c0 rest ih =>
    intro c hc hhit near
    simp only [scanFeatureCoords]
    rcases List.mem_cons.mp hc with rfl | hc2
    · obtain ⟨p, hp, hb, hpix⟩ := hhit
      rw [hp]
      obtain ⟨py, px⟩ := p
      simp only
      rw [if_pos hb, if_pos hpix]
    · cases hp : rc2 (tr2 c0) with
      | none => exact ih hc2 hhit near
      | some p =>
        obtain ⟨py, px⟩ := p
        simp only
        split
        · split
          · rfl
          · exact ih hc2 hhit _
        · exact ih hc2 hhit near

theorem findFloodHit_append {tr : TransformerMap} {rc : RowColMap} {c : ℚ × ℚ} :
    ∀ {rasters : List Raster} (extra : List Raster) (idx : ℕ) (h : ℕ × ℤ × ℤ),
      findFloodHit tr rc c rasters idx = some h →
      findFloodHit tr rc c (rasters ++ extra) idx = some h := by
  intro rasters
  induction rasters with
  | nil =>
    intro extra idx h hfind
    exact Option.noConfusion hfind
  | cons r rest ih =>
    intro extra idx h hfind
    rw [List.cons_append]
    simp only [findFloodHit] at hfind ⊢
    split at hfind
    · rename_i hb
      rw [if_pos hb]
      cases hp : rc r (tr r.crs c) with
      | none =>
        rw [hp] at hfind
        exact ih extra (idx + 1) h hfind
      | some p =>
        rw [hp] at hfind
        obtain ⟨py, px⟩ := p
        simp only at hfind ⊢
        split at hfind
        · rename_i hbp
          rw [if_pos hbp]
          split at hfind
          · rename_i hpix
            rw [if_pos hpix]
            exact hfind
          · rename_i hpix
            rw [if_neg hpix]
            exact ih extra (idx + 1) h hfind
        · rename_i hbp
          rw [if_neg hbp]
          exact ih extra (idx + 1) h hfind
    · rename_i hb
      rw [if_neg hb]
      exact ih extra (idx + 1) h hfind

/-- C6: a road feature with some vertex whose exact projected pixel is
flooded is classified flooded by `analyze_road_impact` - it joins the
affected list and never the near-flood list, regardless of any
neighborhood content; and in the route analyzer the first hazardous match
wins: once a scan of the raster list finds a flooded pixel, appending
further rasters cannot change the outcome (no further tiles are
checked). -/
theorem exact_pixel_flooded_first_match_wins :
    (∀ (tr2 : ℚ × ℚ → ℚ × ℚ) (rc2 : ℚ × ℚ → Option (ℤ × ℤ)) (g : FloodGrid)
        (features : List RoadFeature) (f : RoadFeature), f ∈ features →
      (∃ c ∈ f.coords, gridExactHit tr2 rc2 g c) →
      classifyFeature tr2 rc2 g f = ImpactClass.flooded ∧
      f ∈ (analyze_road_impact tr2 rc2 g features).1 ∧
      f ∉ (analyze_road_impact tr2 rc2 g features).2) ∧
    (∀ (tr : TransformerMap) (rc : RowColMap) (c : ℚ × ℚ)
        (rasters extra : List Raster) (idx : ℕ) (h : ℕ × ℤ × ℤ),
      findFloodHit tr rc c rasters idx = some h →
      findFloodHit tr rc c (rasters ++ extra) idx = some h) := by
  constructor
  · intro tr2 rc2 g features f hmem hex
    obtain ⟨c, hc, hhit⟩ := hex
    have hflood : classifyFeature tr2 rc2 g f = ImpactClass.flooded := by
      have h1 := scan_flooded_of_exact hc hhit false
      rw [classifyFeature]
      cases hscan : scanFeatureCoords tr2 rc2 g f.coords false with
      | mk b1 b2 =>
        rw [hscan] at h1
        cases b1 with
        | false => exact Bool.noConfusion h1
        | true => rfl
    refine ⟨hflood, ?_, ?_⟩
    · exact List.mem_filter.mpr ⟨hmem, by rw [hflood]; rfl⟩
    · intro hin
      have := (List.mem_filter.mp hin).2
      rw [hflood] at this
      exact absurd this (by decide)
  · intro tr rc c rasters extra idx h hfind
    exact findFloodHit_append extra idx h hfind

/-- Witness for C6: a feature with a flooded vertex pixel is classified
flooded, and a route-coordinate hit on the exact-hit raster survives
appending the near-miss raster. -/
theorem exact_pixel_flooded_first_match_wins_witness :
    (classifyFeature (fun p => p) (fun p => some (⌊p.2⌋, ⌊p.1⌋))
        ⟨8, 8, exactHitRaster.pix⟩
        ⟨"LineString", some "A614", some "trunk", [(1, 1)]⟩ =
        ImpactClass.flooded ∧
      (⟨"LineString", some "A614", some "trunk", [(1, 1)]⟩ : RoadFeature) ∈
        (analyze_road_impact (fun p => p) (fun p => some (⌊p.2⌋, ⌊p.1⌋))
          ⟨8, 8, exactHitRaster.pix⟩
          [⟨"LineString", some "A614", some "trunk", [(1, 1)]⟩]).1 ∧
      (⟨"LineString", some "A614", some "trunk", [(1, 1)]⟩ : RoadFeature) ∉
        (analyze_road_impact (fun p => p) (fun p => some (⌊p.2⌋, ⌊p.1⌋))
          ⟨8, 8, exactHitRaster.pix⟩
          [⟨"LineString", some "A614", some "trunk", [(1, 1)]⟩]).2) ∧
    findFloodHit idTransformer floorRowCol (1, 1)
      ([exactHitRaster] ++ [nearMissRaster]) 0 = some (0, 1, 1) := by
  constructor
  · exact exact_pixel_flooded_first_match_wins.1 (fun p => p)
      (fun p => some (⌊p.2⌋, ⌊p.1⌋)) ⟨8, 8, exactHitRaster.pix⟩
      [⟨"LineString", some "A614", some "trunk", [(1, 1)]⟩]
      ⟨"LineString", some "A614", some "trunk", [(1, 1)]⟩
      (List.mem_singleton.mpr rfl)
      ⟨(1, 1), List.mem_singleton.mpr rfl,
        ⟨(1, 1), by decide, by decide, by decide⟩⟩
  · exact exact_pixel_flooded_first_match_wins.2 idTransformer floorRowCol
      (1, 1) [exactHitRaster] [nearMissRaster] 0 (0, 1, 1) (by decide)

theorem vertexFold_mono (p : ℚ × ℚ) (f : RoadFeature) :
    ∀ (vs : List (ℚ × ℚ)) (x : ℚ × RoadFeature),
      ∃ y, vs.foldl (updateBest p f) (some x) = some y ∧ y.1 ≤ x.1 := by
  intro vs
  induction vs with
  | nil => exact fun x => ⟨x, rfl, le_refl _⟩
  | cons v rest ih =>
    intro x
    rw [List.foldl_cons]
    by_cases h : distSq p v < x.1
    · obtain ⟨y, hy, hle⟩ := ih (distSq p v, f)
      refine ⟨y, ?_, le_trans hle (le_of_lt h)⟩
      rw [updateBest, if_pos h] at *
      exact hy
    · obtain ⟨y, hy, hle⟩ := ih x
      refine ⟨y, ?_, hle⟩
      rw [show updateBest p f (some x) v = some x from by
        rw [updateBest]; exact if_neg h]
      exact hy

theorem vertexFold_le (p : ℚ × ℚ) (f : RoadFeature) :
    ∀ (vs : List (ℚ × ℚ)) (acc : Option (ℚ × RoadFeature)) (v : ℚ × ℚ),
      v ∈ vs → ∃ y, vs.foldl (updateBest p f) acc = some y ∧ y.1 ≤ distSq p v := by
  intro vs
  induction vs with
  | nil => intro acc v hv; exact absurd hv (List.not_mem_nil v)
  | cons v0 rest ih =>
    intro acc v hv
    rw [List.foldl_cons]
    rcases List.mem_cons.mp hv with rfl | hv2
    · have hstep : ∃ z : ℚ × RoadFeature,
          updateBest p f acc v = some z ∧ z.1 ≤ distSq p v := by
        cases acc with
        | none => exact ⟨(distSq p v, f), rfl, le_refl _⟩
        | some x =>
          obtain ⟨d, bf⟩ := x
          by_cases h : distSq p v < d
          · exact ⟨(distSq p v, f), by rw [updateBest, if_pos h], le_refl _⟩
          · exact ⟨(d, bf), by rw [updateBest, if_neg h], le_of_not_lt h⟩
      obtain ⟨z, hz, hzle⟩ := hstep
      rw [hz]
      obtain ⟨y, hy, hyle⟩ := vertexFold_mono p f rest z
      exact ⟨y, hy, le_trans hyle hzle⟩
    · exact ih (updateBest p f acc v0) v hv2

theorem vertexFold_src (p : ℚ × ℚ) (f : RoadFeature) :
    ∀ (vs : List (ℚ × ℚ)) (acc : Option (ℚ × RoadFeature)) (y : ℚ × RoadFeature),
      vs.foldl (updateBest p f) acc = some y →
      acc = some y ∨ (y.2 = f ∧ ∃ v ∈ vs, y.1 = distSq p v) := by
  intro vs
  induction vs with
  | nil => intro acc y h; exact Or.inl h
  | cons v0 rest ih =>
    intro acc y h
    rw [List.foldl_cons] at h
    rcases ih (updateBest p f acc v0) y h with hacc | ⟨hf, v, hv, hd⟩
    · cases acc with
      | none =>
        rw [updateBest] at hacc
        have : y = (distSq p v0, f) := (Option.some.injEq _ _ ▸ hacc).symm
        exact Or.inr ⟨by rw [this], v0, List.mem_cons_self v0 rest, by rw [this]⟩
      | some x =>
        obtain ⟨d, bf⟩ := x
        by_cases hlt : distSq p v0 < d
        · rw [updateBest, if_pos hlt] at hacc
          have : y = (distSq p v0, f) := (Option.some.injEq _ _ ▸ hacc).symm
          exact Or.inr ⟨by rw [this], v0, List.mem_cons_self v0 rest, by rw [this]⟩
        · rw [updateBest, if_neg hlt] at hacc
          exact Or.inl hacc
    · exact Or.inr ⟨hf, v, List.mem_cons_of_mem v0 hv, hd⟩

theorem featFold_mono (p : ℚ × ℚ) :
    ∀ (features : List RoadFeature) (x : ℚ × RoadFeature),
      ∃ y, features.foldl (featStep p) (some x) = some y ∧ y.1 ≤ x.1 := by
  intro features
  induction features with
  | nil => exact fun x => ⟨x, rfl, le_refl _⟩
  | cons f0 rest ih =>
    intro x
    rw [List.foldl_cons]
    by_cases hLS : f0.geoType = "LineString"
    · rw [featStep, if_pos hLS]
      obtain ⟨z, hz, hzle⟩ := vertexFold_mono p f0 f0.coords x
      rw [hz]
      obtain ⟨y, hy, hyle⟩ := ih z
      exact ⟨y, hy, le_trans hyle hzle⟩
    · rw [featStep, if_neg hLS]
      exact ih x

theorem featFold_le (p : ℚ × ℚ) :
    ∀ (features : List RoadFeature) (acc : Option (ℚ × RoadFeature))
      (f2 : RoadFeature), f2 ∈ features → f2.geoType = "LineString" →
      ∀ v ∈ f2.coords,
      ∃ y, features.foldl (featStep p) acc = some y ∧ y.1 ≤ distSq p v := by
  intro features
  induction features with
  | nil => intro acc f2 h2; exact absurd h2 (List.not_mem_nil f2)
  | cons f0 rest ih =>
    intro acc f2 h2 hLS v hv
    rw [List.foldl_cons]
    rcases List.mem_cons.mp h2 with rfl | h2
    · rw [featStep, if_pos hLS]
      obtain ⟨z, hz, hzle⟩ := vertexFold_le p f2 f2.coords acc v hv
      rw [hz]
      obtain ⟨y, hy, hyle⟩ := featFold_mono p rest z
      exact ⟨y, hy, le_trans hyle hzle⟩
    · exact ih (featStep p acc f0) f2 h2 hLS v hv

theorem featFold_src (p : ℚ × ℚ) :
    ∀ (features : List RoadFeature) (acc : Option (ℚ × RoadFeature))
      (y : ℚ × RoadFeature), features.foldl (featStep p) acc = some y →
      acc = some y ∨ (y.2 ∈ features ∧ y.2.geoType = "LineString" ∧
        ∃ v ∈ y.2.coords, y.1 = distSq p v) := by
  intro features
  induction features with
  | nil => intro acc y h; exact Or.inl h
  | cons f0 rest ih =>
    intro acc y h
    rw [List.foldl_cons] at h
    rcases ih (featStep p acc f0) y h with hacc | ⟨hmem, hLS, v, hv, hd⟩
    · by_cases hLS : f0.geoType = "LineString"
      · rw [featStep, if_pos hLS] at hacc
        rcases vertexFold_src p f0 f0.coords acc y hacc with hacc2 | ⟨hf, v, hv, hd⟩
        · exact Or.inl hacc2
        · exact Or.inr ⟨by rw [hf]; exact List.mem_cons_self f0 rest,
            by rw [hf]; exact hLS, v, by rw [hf]; exact hv, hd⟩
      · rw [featStep, if_neg hLS] at hacc
        exact Or.inl hacc
    · exact Or.inr ⟨List.mem_cons_of_mem f0 hmem, hLS, v, hv, hd⟩

theorem closestRoad_spec {p : ℚ × ℚ} {features : List RoadFeature} {d : ℚ}
    {f : RoadFeature} (h : closestRoad p features = some (d, f)) :
    (f ∈ features ∧ f.geoType = "LineString" ∧ ∃ v ∈ f.coords, d = distSq p v) ∧
    ∀ f2 ∈ features, f2.geoType = "LineString" → ∀ v ∈ f2.coords,
      d ≤ distSq p v := by
  constructor
  · rcases featFold_src p features none (d, f) h with hnone | hsrc
    · exact Option.noConfusion hnone
    · exact hsrc
  · intro f2 h2 hLS v hv
    obtain ⟨y, hy, hle⟩ := featFold_le p features none f2 h2 hLS v hv
    rw [closestRoad] at h
    rw [h] at hy
    have : y = (d, f) := (Option.some.injEq _ _ ▸ hy).symm
    rw [this] at hle
    exact hle

/-- C8 counterexample: a flagged point at squared distance 2 (far beyond
the squared threshold 1/1000000) from every road vertex is dropped
entirely by the road attribution: the output holds no local-roads bucket
for it, it is empty. -/
theorem far_point_dropped_counterexample :
    (∀ f ∈ [farRoad], ∀ v ∈ f.coords,
      mkRat 1 1000000 ≤ distSq segAtOrigin.coordinate v) ∧
    convert_coordinates_to_road_names (Except.ok [farRoad]) [segAtOrigin] = [] := by
  constructor
  · intro f hf v hv
    rcases List.mem_singleton.mp hf with rfl
    have hv2 : v = ((1 : ℚ), (1 : ℚ)) := by simpa [farRoad] using hv
    rw [hv2, Rat.mkRat_eq_div]
    norm_num [distSq, segAtOrigin]
  · norm_num [convert_coordinates_to_road_names, processSegment, closestRoad,
      featStep, updateBest, distSq, farRoad, segAtOrigin, Rat.mkRat_eq_div]

/-- C8 amended: a flagged point is attached to the road feature attaining
the minimum point-to-vertex distance, and only when that distance is
strictly below the threshold (squared: 1/1000000); a point at or above the
threshold from every road vertex is attributed to no road and dropped from
the report (the unnamed local-roads bucket appears only when the road
fetch fails, and then it collects all points); an attributed road's
severity is "Severely flooded" exactly when it accumulates more than 5
points, else "Partially flooded". -/
theorem road_attribution_threshold_and_severity :
    (∀ (p : ℚ × ℚ) (features : List RoadFeature) (d : ℚ) (f : RoadFeature),
      closestRoad p features = some (d, f) →
      (f ∈ features ∧ f.geoType = "LineString" ∧ ∃ v ∈ f.coords, d = distSq p v) ∧
      ∀ f2 ∈ features, f2.geoType = "LineString" → ∀ v ∈ f2.coords,
        d ≤ distSq p v) ∧
    (∀ (features : List RoadFeature) (groups : List (String × RoadGroup))
        (seg : AffectedSegment),
      (∀ f ∈ features, f.geoType = "LineString" →
        ∀ v ∈ f.coords, mkRat 1 1000000 ≤ distSq seg.coordinate v) →
      processSegment features groups seg = groups) ∧
    (∀ (features : List RoadFeature) (segments : List AffectedSegment)
        (imp : RoadImpact),
      imp ∈ convert_coordinates_to_road_names (Except.ok features) segments →
      imp.severity =
        (if imp.affected_points > 5 then "Severely flooded"
         else "Partially flooded")) ∧
    (∀ (e : String) (segments : List AffectedSegment), segments ≠ [] →
      convert_coordinates_to_road_names (Except.error e) segments =
        [⟨"🛤️ Roads near Fishlake area", "Local roads",
          "Multiple sections flooded", segments.length,
          segments.map (fun s => (s.coordinate.2, s.coordinate.1))⟩]) := by
  refine ⟨?_, ?_, ?_, ?_⟩
  · intro p features d f h
    exact closestRoad_spec h
  · intro features groups seg hfar
    rw [processSegment]
    cases hcr : closestRoad seg.coordinate features with
    | none => rfl
    | some df =>
      obtain ⟨d, f⟩ := df
      obtain ⟨⟨hmem, hLS, v, hv, hd⟩, -⟩ := closestRoad_spec hcr
      have : ¬ d < mkRat 1 1000000 := by
        rw [hd]
        exact not_lt_of_ge (hfar f hmem hLS v hv)
      simp only
      rw [if_neg this]
  · intro features segments imp himp
    rw [convert_coordinates_to_road_names] at himp
    split at himp
    · exact absurd himp (List.not_mem_nil imp)
    · obtain ⟨kg, hkg, hrfl⟩ := List.mem_map.mp himp
      rw [← hrfl]
  · intro e segments hne
    rw [convert_coordinates_to_road_names,
      if_neg (by rw [List.isEmpty_iff]; exact hne)]

/-- Witness for C8 amended at concrete roads and segments. -/
theorem road_attribution_threshold_and_severity_witness :
    ((nearRoad ∈ [nearRoad] ∧ nearRoad.geoType = "LineString" ∧
        ∃ v ∈ nearRoad.coords, (0 : ℚ) = distSq ((0 : ℚ), (0 : ℚ)) v) ∧
      ∀ f2 ∈ [nearRoad], f2.geoType = "LineString" → ∀ v ∈ f2.coords,
        (0 : ℚ) ≤ distSq ((0 : ℚ), (0 : ℚ)) v) ∧
    processSegment [farRoad] [] segAtOrigin = [] ∧
    convert_coordinates_to_road_names (Except.error "overpass down") [segAtOrigin] =
      [⟨"🛤️ Roads near Fishlake area", "Local roads", "Multiple sections flooded",
        1, [((0 : ℚ), (0 : ℚ))]⟩] := by
  refine ⟨?_, ?_, ?_⟩
  · exact road_attribution_threshold_and_severity.1 ((0 : ℚ), (0 : ℚ))
      [nearRoad] 0 nearRoad
      (by norm_num [closestRoad, featStep, updateBest, nearRoad, distSq])
  · exact road_attribution_threshold_and_severity.2.1 [farRoad] [] segAtOrigin
      (by
        intro f hf hLS v hv
        rcases List.mem_singleton.mp hf with rfl
        have hv2 : v = ((1 : ℚ), (1 : ℚ)) := by simpa [farRoad] using hv
        rw [hv2, Rat.mkRat_eq_div]
        norm_num [distSq, segAtOrigin])
  · exact road_attribution_threshold_and_severity.2.2.2 "overpass down"
      [segAtOrigin] (List.cons_ne_nil _ _)

theorem process_flood_tiles_all_fail {provider : BBox → Except String Raster}
    {tiles : List BBox}
    (h : ∀ t ∈ tiles, get_flood_overlay_from_n8n provider t = none) :
    process_flood_tiles provider tiles = [] := by
  induction tiles with
  | nil => rfl
  | cons t rest ih =>
    simp only [process_flood_tiles]
    rw [h t (List.mem_cons_self t rest)]
    exact ih (fun t2 h2 => h t2 (List.mem_cons_of_mem t h2))

theorem analysis_empty_of_no_rasters {tr : TransformerMap} {rc : RowColMap} :
    ∀ (rd : List (ℕ × List (ℚ × ℚ))),
      ((rd.map (fun v => analyze_road_flood_impact_improved tr rc [v] [])).filter
        (fun l => !l.isEmpty)) = [] ∧
      (rd.map (fun v => analyze_road_flood_impact_improved tr rc [v] [])).flatten
        = [] := by
  intro rd
  induction rd with
  | nil => exact ⟨rfl, rfl⟩
  | cons v rest ih =>
    have ha : analyze_road_flood_impact_improved tr rc [v] [] = ([] : List AffectedSegment) := rfl
    simp only [List.map_cons, List.filter_cons, List.flatten_cons, ha]
    simpa using ih

/-- C9: when the hazard provider yields no data for every tile, the stored
result has `flood_data_found = false`, zero affected vehicles, no road
impacts and no affected segments; and the user-visible report of that run
differs from the report of any zero-impact run whose flood data was found
(which shows the "route clear" banner instead of the "no flood data"
warning). -/
theorem no_flood_data_flagged_distinctly (tr : TransformerMap) (rc : RowColMap)
    (provider : BBox → Except String Raster)
    (roadData : Except String (List RoadFeature))
    (route_data : List (ℕ × List (ℚ × ℚ))) (tiles : List BBox)
    (hfail : ∀ t ∈ tiles, get_flood_overlay_from_n8n provider t = none) :
    (run_improved_analysis tr rc provider roadData route_data tiles).flood_data_found
      = false ∧
    (run_improved_analysis tr rc provider roadData route_data tiles).total_affected
      = 0 ∧
    (run_improved_analysis tr rc provider roadData route_data tiles).road_impacts
      = [] ∧
    (run_improved_analysis tr rc provider roadData route_data tiles).affected_segments
      = [] ∧
    ∀ other : AnalysisResults, other.total_affected = 0 →
      other.flood_data_found = true →
      report (run_improved_analysis tr rc provider roadData route_data tiles) ≠
        report other := by
  have hrast := process_flood_tiles_all_fail hfail
  have hres : run_improved_analysis tr rc provider roadData route_data tiles =
      ⟨0, false, [], [], []⟩ := by
    simp only [run_improved_analysis, hrast]
    rw [(analysis_empty_of_no_rasters route_data).1,
      (analysis_empty_of_no_rasters route_data).2]
    rfl
  refine ⟨by rw [hres], by rw [hres], by rw [hres], by rw [hres], ?_⟩
  intro other h0 h1
  rw [hres]
  have hrep1 : report ⟨0, false, [], [], []⟩ =
      "⚠️ NO FLOOD DATA - Could not retrieve current flood information" := rfl
  have hrep2 : report other =
      "✅ ROUTE CLEAR - No flood hazards detected on your route" := by
    rw [report, h0, h1]
    rfl
  rw [hrep1, hrep2]
  decide

/-- Witness for C9 with an always-failing provider and one tile. -/
theorem no_flood_data_flagged_distinctly_witness :
    (run_improved_analysis idTransformer floorRowCol
      (fun _ => Except.error "no data") (Except.ok [])
      [(0, [(1, 1)])] [⟨0, 0, 2, 2⟩]).flood_data_found = false ∧
    (run_improved_analysis idTransformer floorRowCol
      (fun _ => Except.error "no data") (Except.ok [])
      [(0, [(1, 1)])] [⟨0, 0, 2, 2⟩]).total_affected = 0 ∧
    (run_improved_analysis idTransformer floorRowCol
      (fun _ => Except.error "no data") (Except.ok [])
      [(0, [(1, 1)])] [⟨0, 0, 2, 2⟩]).road_impacts = [] ∧
    (run_improved_analysis idTransformer floorRowCol
      (fun _ => Except.error "no data") (Except.ok [])
      [(0, [(1, 1)])] [⟨0, 0, 2, 2⟩]).affected_segments = [] ∧
    ∀ other : AnalysisResults, other.total_affected = 0 →
      other.flood_data_found = true →
      report (run_improved_analysis idTransformer floorRowCol
        (fun _ => Except.error "no data") (Except.ok [])
        [(0, [(1, 1)])] [⟨0, 0, 2, 2⟩]) ≠ report other :=
  no_flood_data_flagged_distinctly idTransformer floorRowCol
    (fun _ => Except.error "no data") (Except.ok [])
    [(0, [(1, 1)])] [⟨0, 0, 2, 2⟩] (fun _ _ => rfl)

end FloodDemo
